import Mathlib

/-!
Verification of the streamline-visualization tracing core
(`src/streamline-visualization/src/core/VectorField.cpp` and
`src/streamline-visualization/src/core/StreamlineTracer.cpp`).

The C++ `float` scalars are modelled as real numbers, `int`/`short`
quantities as integers.  Fixed-size heap arrays that the program only
reads through computed indices (`data`, `zeroMask`) are modelled as total
functions from the index type; the zero mask additionally gets a faithful
last-write model of the construction loop of `calculateZeroMask`.
`std::sqrt`/`std::sqrtf` is `Real.sqrt`, `std::cosf` is `Real.cos`,
`std::roundf` (round half away from zero) and `static_cast<int>`
(truncation toward zero) are spelled out on `ℝ`.  The instance constant
`SIMPLE_INTERPOLATION` is `true` in the source (`VectorField.h`), and the
trilinear branch of `interpolateVector` is embedded as the (dead) else
branch, exactly as in the source.  The bounded `for` loop of
`traceStreamlineDirection` is embedded by structural recursion on the
remaining iteration count.  The OpenMP batch loop of
`traceAllStreamlines` is embedded sequentially in seed order, which is
one of its legal schedules; batch-level claims are settled at the level
of list membership, which is schedule-independent.
-/

namespace StreamVis

noncomputable section

/-- `Point3D` (StreamlineTracer.h): three float coordinates; the default
constructor zero-initializes all of them. -/
@[ext] structure Point3D where
  x : ℝ
  y : ℝ
  z : ℝ

instance : Inhabited Point3D := ⟨⟨0, 0, 0⟩⟩

/-- `VectorField` (VectorField.h): dimensions, the dense component array
(3 floats per voxel, read through computed linear indices), and the
per-axis flip flags (default `false`). -/
structure VectorField where
  dimX : ℤ
  dimY : ℤ
  dimZ : ℤ
  data : ℤ → ℝ
  flipX : Bool := false
  flipY : Bool := false
  flipZ : Bool := false

/-- `VectorField::SIMPLE_INTERPOLATION` (VectorField.h): a `const bool`
member initialized to `true` on every instance. -/
def SIMPLE_INTERPOLATION : Bool := true

/-- `std::roundf`: round half away from zero, as an integer result
(the source immediately stores it into `int`). -/
def croundf (x : ℝ) : ℤ :=
  if x < 0 then -⌊-x + 1 / 2⌋ else ⌊x + 1 / 2⌋

/-- `static_cast<int>` on a float: truncation toward zero. -/
def truncToInt (x : ℝ) : ℤ :=
  if x < 0 then -⌊-x⌋ else ⌊x⌋

namespace VectorField

/-- `VectorField::getVector` (VectorField.cpp:105-120): bounds check with
zero-vector sentinel, then indexed read at `3*(z + dimZ*(y + dimY*x))`
with per-axis flip negation. -/
def getVector (f : VectorField) (x y z : ℤ) : Point3D :=
  if x < 0 ∨ x ≥ f.dimX ∨ y < 0 ∨ y ≥ f.dimY ∨ z < 0 ∨ z ≥ f.dimZ then
    ⟨0, 0, 0⟩
  else
    let index := 3 * (z + f.dimZ * (y + f.dimY * x))
    ⟨if f.flipX then -1 * f.data index else f.data index,
     if f.flipY then -1 * f.data (index + 1) else f.data (index + 1),
     if f.flipZ then -1 * f.data (index + 2) else f.data (index + 2)⟩

/-- `VectorField::isInBounds` (VectorField.cpp:200-205). -/
def isInBounds (f : VectorField) (x y z : ℝ) : Bool :=
  decide (x ≥ 0 ∧ x ≤ (f.dimX : ℝ) - 1 ∧ y ≥ 0 ∧ y ≤ (f.dimY : ℝ) - 1 ∧
    z ≥ 0 ∧ z ≤ (f.dimZ : ℝ) - 1)

/-- `VectorField::interpolateVector` (VectorField.cpp:122-198): bounds
check with zero sentinel; nearest-sample mode when `SIMPLE_INTERPOLATION`
(which the source fixes to `true`), trilinear blend otherwise. -/
def interpolateVector (f : VectorField) (x y z : ℝ) : Point3D :=
  if ¬ (f.isInBounds x y z = true) then ⟨0, 0, 0⟩
  else if SIMPLE_INTERPOLATION then
    f.getVector (croundf x) (croundf y) (croundf z)
  else
    let x0 := max 0 (min (truncToInt x) (f.dimX - 2))
    let y0 := max 0 (min (truncToInt y) (f.dimY - 2))
    let z0 := max 0 (min (truncToInt z) (f.dimZ - 2))
    let x1 := min (x0 + 1) (f.dimX - 1)
    let y1 := min (y0 + 1) (f.dimY - 1)
    let z1 := min (z0 + 1) (f.dimZ - 1)
    let wx := max 0 (min 1 (x - (x0 : ℝ)))
    let wy := max 0 (min 1 (y - (y0 : ℝ)))
    let wz := max 0 (min 1 (z - (z0 : ℝ)))
    let v000 := f.getVector x0 y0 z0
    let v001 := f.getVector x0 y0 z1
    let v010 := f.getVector x0 y1 z0
    let v011 := f.getVector x0 y1 z1
    let v100 := f.getVector x1 y0 z0
    let v101 := f.getVector x1 y0 z1
    let v110 := f.getVector x1 y1 z0
    let v111 := f.getVector x1 y1 z1
    ⟨(1-wx)*(1-wy)*(1-wz)*v000.x + (1-wx)*(1-wy)*wz*v001.x +
       (1-wx)*wy*(1-wz)*v010.x + (1-wx)*wy*wz*v011.x +
       wx*(1-wy)*(1-wz)*v100.x + wx*(1-wy)*wz*v101.x +
       wx*wy*(1-wz)*v110.x + wx*wy*wz*v111.x,
     (1-wx)*(1-wy)*(1-wz)*v000.y + (1-wx)*(1-wy)*wz*v001.y +
       (1-wx)*wy*(1-wz)*v010.y + (1-wx)*wy*wz*v011.y +
       wx*(1-wy)*(1-wz)*v100.y + wx*(1-wy)*wz*v101.y +
       wx*wy*(1-wz)*v110.y + wx*wy*wz*v111.y,
     (1-wx)*(1-wy)*(1-wz)*v000.z + (1-wx)*(1-wy)*wz*v001.z +
       (1-wx)*wy*(1-wz)*v010.z + (1-wx)*wy*wz*v011.z +
       wx*(1-wy)*(1-wz)*v100.z + wx*(1-wy)*wz*v101.z +
       wx*wy*(1-wz)*v110.z + wx*wy*wz*v111.z⟩

/-- One write of the `calculateZeroMask` loop body
(VectorField.cpp:228-240): store at linear index
`x + y*dimX + z*dimX*dimY` the flag `false` iff `getVector` at the voxel
is the zero vector. -/
def maskWrite (f : VectorField) (x y z : ℤ) (m : ℤ → Bool) : ℤ → Bool :=
  fun i =>
    if i = x + y * f.dimX + z * f.dimX * f.dimY then
      (if (f.getVector x y z).x = 0 ∧ (f.getVector x y z).y = 0 ∧
          (f.getVector x y z).z = 0 then false else true)
    else m i

/-- `VectorField::calculateZeroMask` (VectorField.cpp:218-245): the
freshly allocated (unwritten cells modelled as `false`) mask after the
full x-outer / y-middle / z-inner write loop. -/
def calculateZeroMask (f : VectorField) : ℤ → Bool :=
  (List.range f.dimX.toNat).foldl
    (fun m (x : ℕ) =>
      (List.range f.dimY.toNat).foldl
        (fun m (y : ℕ) =>
          (List.range f.dimZ.toNat).foldl
            (fun m (z : ℕ) => maskWrite f x y z m) m)
        m)
    (fun _ => false)

end VectorField

/-- `StreamlineTracer` (StreamlineTracer.h): the vector field reference,
the tracing parameters, and the zero mask copied from the field by the
constructor. -/
structure StreamlineTracer where
  vectorField : VectorField
  stepSize : ℝ
  maxSteps : ℤ
  minMagnitude : ℝ
  maxLength : ℝ
  maxAngle : ℝ
  zeroMask : ℤ → Bool

/-- `StreamlineTracer::StreamlineTracer` (StreamlineTracer.cpp:13-24):
stores the parameters and caches `field->getZeroMask(...)`, which is the
mask `calculateZeroMask` computed at field construction. -/
def mkStreamlineTracer (field : VectorField) (step : ℝ) (steps : ℤ)
    (minMag maxLen maxAngle : ℝ) : StreamlineTracer :=
  { vectorField := field
    stepSize := step
    maxSteps := steps
    minMagnitude := minMag
    maxLength := maxLen
    maxAngle := maxAngle
    zeroMask := field.calculateZeroMask }

namespace StreamlineTracer

/-- `StreamlineTracer::vecDiff` (StreamlineTracer.cpp:411-418). -/
def vecDiff (v u : Point3D) : Point3D :=
  ⟨v.x - u.x, v.y - u.y, v.z - u.z⟩

/-- `StreamlineTracer::normalize` (StreamlineTracer.cpp:420-431): the
default-constructed result stays `(0,0,0)` when the length is not
positive. -/
def normalize (v : Point3D) : Point3D :=
  let length := Real.sqrt (v.x * v.x + v.y * v.y + v.z * v.z)
  if length > 0 then ⟨v.x / length, v.y / length, v.z / length⟩
  else ⟨0, 0, 0⟩

/-- `StreamlineTracer::dot` (StreamlineTracer.cpp:444-447). -/
def dot (v u : Point3D) : ℝ :=
  v.x * u.x + v.y * u.y + v.z * u.z

/-- `StreamlineTracer::eulerIntegrate` (StreamlineTracer.cpp:307-325). -/
def eulerIntegrate (t : StreamlineTracer) (pos : Point3D) (step : ℝ) :
    Point3D :=
  let v := t.vectorField.interpolateVector pos.x pos.y pos.z
  let magnitude := Real.sqrt (v.x * v.x + v.y * v.y + v.z * v.z)
  let v := if magnitude > 0 then
    (⟨v.x / magnitude, v.y / magnitude, v.z / magnitude⟩ : Point3D) else v
  ⟨pos.x + step * v.x, pos.y + step * v.y, pos.z + step * v.z⟩

/-- `StreamlineTracer::rk4Integrate` (StreamlineTracer.cpp:327-386): four
field samples, each normalized in place only when its magnitude is
positive, blended by the RK4 formula. -/
def rk4Integrate (t : StreamlineTracer) (pos : Point3D) (step : ℝ) :
    Point3D :=
  let k1 := t.vectorField.interpolateVector pos.x pos.y pos.z
  let mag1 := Real.sqrt (k1.x * k1.x + k1.y * k1.y + k1.z * k1.z)
  let k1 := if mag1 > 0 then
    (⟨k1.x / mag1, k1.y / mag1, k1.z / mag1⟩ : Point3D) else k1
  let k2 := t.vectorField.interpolateVector
    (pos.x + step / 2 * k1.x) (pos.y + step / 2 * k1.y)
    (pos.z + step / 2 * k1.z)
  let mag2 := Real.sqrt (k2.x * k2.x + k2.y * k2.y + k2.z * k2.z)
  let k2 := if mag2 > 0 then
    (⟨k2.x / mag2, k2.y / mag2, k2.z / mag2⟩ : Point3D) else k2
  let k3 := t.vectorField.interpolateVector
    (pos.x + step / 2 * k2.x) (pos.y + step / 2 * k2.y)
    (pos.z + step / 2 * k2.z)
  let mag3 := Real.sqrt (k3.x * k3.x + k3.y * k3.y + k3.z * k3.z)
  let k3 := if mag3 > 0 then
    (⟨k3.x / mag3, k3.y / mag3, k3.z / mag3⟩ : Point3D) else k3
  let k4 := t.vectorField.interpolateVector
    (pos.x + step * k3.x) (pos.y + step * k3.y) (pos.z + step * k3.z)
  let mag4 := Real.sqrt (k4.x * k4.x + k4.y * k4.y + k4.z * k4.z)
  let k4 := if mag4 > 0 then
    (⟨k4.x / mag4, k4.y / mag4, k4.z / mag4⟩ : Point3D) else k4
  ⟨pos.x + step / 6 * (k1.x + 2 * k2.x + 2 * k3.x + k4.x),
   pos.y + step / 6 * (k1.y + 2 * k2.y + 2 * k3.y + k4.y),
   pos.z + step / 6 * (k1.z + 2 * k2.z + 2 * k3.z + k4.z)⟩

/-- The loop of `StreamlineTracer::traceStreamlineDirection`
(StreamlineTracer.cpp:454-499), by recursion on the remaining iteration
budget of the `for (step = 0; step < maxSteps && totalLength < maxLength;
step++)` loop; the state is the current position, the path built so far
and the accumulated length, and the result is the final `(path,
totalLength)` pair. -/
def traceStepAux (t : StreamlineTracer) (direction : ℤ) :
    ℕ → Point3D → List Point3D → ℝ → List Point3D × ℝ
  | 0, _, path, totalLength => (path, totalLength)
  | fuel + 1, currentPos, path, totalLength =>
    if ¬ totalLength < t.maxLength then (path, totalLength)
    else
      let v := t.vectorField.interpolateVector currentPos.x currentPos.y
        currentPos.z
      let magnitude := Real.sqrt (v.x * v.x + v.y * v.y + v.z * v.z)
      if magnitude < t.minMagnitude then (path, totalLength)
      else
        let nextPos := t.rk4Integrate currentPos ((direction : ℝ) * t.stepSize)
        if ¬ (t.vectorField.isInBounds nextPos.x nextPos.y nextPos.z = true)
        then (path, totalLength)
        else
          let prevPos := path.getLast?.getD ⟨0, 0, 0⟩
          let prevVec := normalize (vecDiff currentPos prevPos)
          let nextVec := normalize (vecDiff nextPos currentPos)
          if dot prevVec nextVec > Real.cos t.maxAngle then (path, totalLength)
          else
            let stepDist := Real.sqrt
              ((nextPos.x - currentPos.x) * (nextPos.x - currentPos.x) +
               (nextPos.y - currentPos.y) * (nextPos.y - currentPos.y) +
               (nextPos.z - currentPos.z) * (nextPos.z - currentPos.z))
            let path2 := path ++ [nextPos]
            if (path2.length : ℤ) > t.maxSteps then (path2, totalLength + stepDist)
            else traceStepAux t direction fuel nextPos path2
              (totalLength + stepDist)

/-- `StreamlineTracer::traceStreamlineDirection`
(StreamlineTracer.cpp:449-502) together with its final `totalLength`
accumulator value. -/
def traceStreamlineDirectionAux (t : StreamlineTracer) (seed : Point3D)
    (direction : ℤ) : List Point3D × ℝ :=
  traceStepAux t direction t.maxSteps.toNat seed [] 0

/-- `StreamlineTracer::traceStreamlineDirection`
(StreamlineTracer.cpp:449-502): the returned path. -/
def traceStreamlineDirection (t : StreamlineTracer) (seed : Point3D)
    (direction : ℤ) : List Point3D :=
  (t.traceStreamlineDirectionAux seed direction).1

/-- `StreamlineTracer::traceStreamline` (StreamlineTracer.cpp:388-409):
bounds-validate the seed, trace both directions, and concatenate
`reverse(backward) ++ [seed] ++ forward`. -/
def traceStreamline (t : StreamlineTracer) (seed : Point3D) :
    List Point3D :=
  if ¬ (t.vectorField.isInBounds seed.x seed.y seed.z = true) then []
  else
    let forwardPath := t.traceStreamlineDirection seed 1
    let backwardPath := t.traceStreamlineDirection seed (-1)
    backwardPath.reverse ++ [seed] ++ forwardPath

/-- `StreamlineTracer::traceAllStreamlines`
(StreamlineTracer.cpp:536-567): per-seed traces, keeping only streamlines
with more than 2 points; the OpenMP schedule is embedded as the
sequential seed-order schedule. -/
def traceAllStreamlines (t : StreamlineTracer) (seeds : List Point3D) :
    List (List Point3D) :=
  seeds.foldl
    (fun streamlines seed =>
      let streamline := t.traceStreamline seed
      if streamline.length > 2 then streamlines ++ [streamline]
      else streamlines)
    []

/-- `StreamlineTracer::generateSliceGridSeeds`
(StreamlineTracer.cpp:26-64): reject an out-of-range slice index, then
collect one point per (x, y) of the slice plane whose zero-mask entry at
linear index `x + y*dimX + slice*dimX*dimZ` holds. -/
def generateSliceGridSeeds (t : StreamlineTracer) (seedDensity slice : ℤ) :
    List Point3D :=
  if slice < 0 ∨ slice ≥ t.vectorField.dimZ then []
  else
    (List.range t.vectorField.dimX.toNat).flatMap
      (fun (x : ℕ) =>
        (List.range t.vectorField.dimY.toNat).filterMap
          (fun (y : ℕ) =>
            if t.zeroMask ((x : ℤ) + (y : ℤ) * t.vectorField.dimX +
                slice * t.vectorField.dimX * t.vectorField.dimZ) then
              some ⟨((x : ℤ) : ℝ), ((y : ℤ) : ℝ), (slice : ℝ)⟩
            else none))

end StreamlineTracer

/-- Sum of consecutive Euclidean distances along a chain that starts at
the given point, written with the same squared-difference products as the
`stepDist` computation in the source. -/
def chainDist : Point3D → List Point3D → ℝ
  | _, [] => 0
  | p, q :: qs =>
    Real.sqrt ((q.x - p.x) * (q.x - p.x) + (q.y - p.y) * (q.y - p.y) +
      (q.z - p.z) * (q.z - p.z)) + chainDist q qs

/-! Evaluation helpers. -/

theorem sqrt_eval {a b : ℝ} (hb : 0 ≤ b) (h : b * b = a) :
    Real.sqrt a = b := by
  rw [← h]
  exact Real.sqrt_mul_self hb

theorem croundf_eq {x : ℝ} {n : ℤ} (h0 : 0 ≤ x) (h1 : (n : ℝ) ≤ x + 1 / 2)
    (h2 : x + 1 / 2 < n + 1) : croundf x = n := by
  rw [croundf, if_neg (not_lt.2 h0)]
  exact Int.floor_eq_iff.2 ⟨h1, h2⟩

theorem isInBounds_iff (f : VectorField) (x y z : ℝ) :
    f.isInBounds x y z = true ↔
      (x ≥ 0 ∧ x ≤ (f.dimX : ℝ) - 1 ∧ y ≥ 0 ∧ y ≤ (f.dimY : ℝ) - 1 ∧
        z ≥ 0 ∧ z ≤ (f.dimZ : ℝ) - 1) := by
  simp [VectorField.isInBounds]

theorem interpolateVector_simple (f : VectorField) (x y z : ℝ)
    (h : f.isInBounds x y z = true) :
    f.interpolateVector x y z =
      f.getVector (croundf x) (croundf y) (croundf z) := by
  rw [VectorField.interpolateVector, if_neg (by simp [h])]
  simp [SIMPLE_INTERPOLATION]

theorem normalize_eval (v : Point3D) (L : ℝ) (hL : 0 < L)
    (h : L * L = v.x * v.x + v.y * v.y + v.z * v.z) :
    StreamlineTracer.normalize v = ⟨v.x / L, v.y / L, v.z / L⟩ := by
  rw [StreamlineTracer.normalize]
  rw [show Real.sqrt (v.x * v.x + v.y * v.y + v.z * v.z) = L from
    sqrt_eval hL.le h]
  rw [if_pos hL]

theorem normalize_zero :
    StreamlineTracer.normalize ⟨0, 0, 0⟩ = ⟨0, 0, 0⟩ := by
  rw [StreamlineTracer.normalize]
  norm_num

/-! Single-iteration characterizations of the direction-trace loop. -/

namespace StreamlineTracer

theorem traceStepAux_zero (t : StreamlineTracer) (d : ℤ) (cur : Point3D)
    (path : List Point3D) (L : ℝ) :
    traceStepAux t d 0 cur path L = (path, L) := rfl

theorem traceStepAux_maxlen (t : StreamlineTracer) (d : ℤ) (fuel : ℕ)
    (cur : Point3D) (path : List Point3D) (L : ℝ)
    (hL : ¬ L < t.maxLength) :
    traceStepAux t d (fuel + 1) cur path L = (path, L) := by
  rw [traceStepAux, if_pos hL]

theorem traceStepAux_mag (t : StreamlineTracer) (d : ℤ) (fuel : ℕ)
    (cur : Point3D) (path : List Point3D) (L : ℝ) (v : Point3D)
    (hL : L < t.maxLength)
    (hv : t.vectorField.interpolateVector cur.x cur.y cur.z = v)
    (hmag : Real.sqrt (v.x * v.x + v.y * v.y + v.z * v.z) < t.minMagnitude) :
    traceStepAux t d (fuel + 1) cur path L = (path, L) := by
  rw [traceStepAux, if_neg (not_not_intro hL), hv, if_pos hmag]

theorem traceStepAux_bounds (t : StreamlineTracer) (d : ℤ) (fuel : ℕ)
    (cur : Point3D) (path : List Point3D) (L : ℝ) (v next : Point3D)
    (hL : L < t.maxLength)
    (hv : t.vectorField.interpolateVector cur.x cur.y cur.z = v)
    (hmag : ¬ Real.sqrt (v.x * v.x + v.y * v.y + v.z * v.z) < t.minMagnitude)
    (hnext : t.rk4Integrate cur ((d : ℝ) * t.stepSize) = next)
    (hout : t.vectorField.isInBounds next.x next.y next.z = false) :
    traceStepAux t d (fuel + 1) cur path L = (path, L) := by
  rw [traceStepAux, if_neg (not_not_intro hL), hv, if_neg hmag, hnext,
    if_pos (by simp [hout])]

theorem traceStepAux_angle (t : StreamlineTracer) (d : ℤ) (fuel : ℕ)
    (cur : Point3D) (path : List Point3D) (L : ℝ) (v next prev : Point3D)
    (hL : L < t.maxLength)
    (hv : t.vectorField.interpolateVector cur.x cur.y cur.z = v)
    (hmag : ¬ Real.sqrt (v.x * v.x + v.y * v.y + v.z * v.z) < t.minMagnitude)
    (hnext : t.rk4Integrate cur ((d : ℝ) * t.stepSize) = next)
    (hin : t.vectorField.isInBounds next.x next.y next.z = true)
    (hprev : path.getLast?.getD ⟨0, 0, 0⟩ = prev)
    (hang : dot (normalize (vecDiff cur prev)) (normalize (vecDiff next cur)) >
      Real.cos t.maxAngle) :
    traceStepAux t d (fuel + 1) cur path L = (path, L) := by
  rw [traceStepAux, if_neg (not_not_intro hL), hv, if_neg hmag, hnext,
    if_neg (not_not_intro hin), hprev, if_pos hang]

theorem traceStepAux_continue (t : StreamlineTracer) (d : ℤ) (fuel : ℕ)
    (cur : Point3D) (path : List Point3D) (L : ℝ) (v next prev : Point3D)
    (sd : ℝ)
    (hL : L < t.maxLength)
    (hv : t.vectorField.interpolateVector cur.x cur.y cur.z = v)
    (hmag : ¬ Real.sqrt (v.x * v.x + v.y * v.y + v.z * v.z) < t.minMagnitude)
    (hnext : t.rk4Integrate cur ((d : ℝ) * t.stepSize) = next)
    (hin : t.vectorField.isInBounds next.x next.y next.z = true)
    (hprev : path.getLast?.getD ⟨0, 0, 0⟩ = prev)
    (hang : ¬ dot (normalize (vecDiff cur prev)) (normalize (vecDiff next cur)) >
      Real.cos t.maxAngle)
    (hsd : Real.sqrt
      ((next.x - cur.x) * (next.x - cur.x) +
        (next.y - cur.y) * (next.y - cur.y) +
        (next.z - cur.z) * (next.z - cur.z)) = sd)
    (hms : ¬ ((path.length : ℤ) + 1 > t.maxSteps)) :
    traceStepAux t d (fuel + 1) cur path L =
      traceStepAux t d fuel next (path ++ [next]) (L + sd) := by
  rw [traceStepAux, if_neg (not_not_intro hL), hv, if_neg hmag, hnext,
    if_neg (not_not_intro hin), hprev, if_neg hang, hsd]
  simp only [List.length_append, List.length_singleton, Nat.cast_add,
    Nat.cast_one]
  rw [if_neg hms]

end StreamlineTracer

/-! Concrete instances used to exercise the code paths.

`constXField` is a 10x1x1 field whose every voxel holds the vector
(1, 0, 0).  `cutXField` is a 10x1x1 field whose voxels 0..4 hold
(1, 0, 0) and whose voxels 5..9 hold the zero vector. -/

def constXField : VectorField :=
  { dimX := 10, dimY := 1, dimZ := 1
    data := fun i => if i % 3 = 0 then 1 else 0 }

def cutXField : VectorField :=
  { dimX := 10, dimY := 1, dimZ := 1
    data := fun i => if i < 15 ∧ i % 3 = 0 then 1 else 0 }

/-- Tracer over `constXField` with `maxAngle = 2π/3` (so `cos maxAngle`
is negative). -/
def tEx1 : StreamlineTracer :=
  { vectorField := constXField, stepSize := 1, maxSteps := 3
    minMagnitude := 1 / 2, maxLength := 100, maxAngle := 2 * Real.pi / 3
    zeroMask := fun _ => true }

/-- Tracer over `cutXField` built exactly as the constructor builds it
(in particular its zero mask is the field's `calculateZeroMask`), with
`maxAngle = 0` so that the angle test never fires. -/
def tEx2 : StreamlineTracer :=
  mkStreamlineTracer cutXField 1 3 (1 / 2) 100 0

theorem getVector_constX (n : ℤ) (h0 : 0 ≤ n) (h1 : n < 10) :
    constXField.getVector n 0 0 = ⟨1, 0, 0⟩ := by
  rw [VectorField.getVector]
  rw [if_neg (by simp only [constXField]; omega)]
  simp only [constXField]
  norm_num
  all_goals omega

theorem getVector_cutX_lo (n : ℤ) (h0 : 0 ≤ n) (h1 : n < 5) :
    cutXField.getVector n 0 0 = ⟨1, 0, 0⟩ := by
  rw [VectorField.getVector]
  rw [if_neg (by simp only [cutXField]; omega)]
  simp only [cutXField]
  norm_num
  all_goals omega

theorem getVector_cutX_hi (n : ℤ) (h0 : 5 ≤ n) (h1 : n < 10) :
    cutXField.getVector n 0 0 = ⟨0, 0, 0⟩ := by
  rw [VectorField.getVector]
  rw [if_neg (by simp only [cutXField]; omega)]
  simp only [cutXField]
  norm_num
  all_goals omega

theorem isInBounds_dim10 (f : VectorField) (hx : f.dimX = 10)
    (hy : f.dimY = 1) (hz : f.dimZ = 1) (x : ℝ) (h0 : 0 ≤ x) (h9 : x ≤ 9) :
    f.isInBounds x 0 0 = true := by
  rw [isInBounds_iff, hx, hy, hz]
  norm_num [h0, h9]

theorem croundf_ofInt (n : ℤ) (h : 0 ≤ n) : croundf (n : ℝ) = n :=
  croundf_eq (by exact_mod_cast h) (by norm_num) (by norm_num)

theorem croundf_zero : croundf (0 : ℝ) = 0 :=
  croundf_eq le_rfl (by norm_num) (by norm_num)

theorem tEx1_vf : tEx1.vectorField = constXField := rfl

theorem tEx1_stepSize : tEx1.stepSize = 1 := rfl

theorem tEx1_maxSteps : tEx1.maxSteps = 3 := rfl

theorem tEx1_minMagnitude : tEx1.minMagnitude = 1 / 2 := rfl

theorem tEx1_maxLength : tEx1.maxLength = 100 := rfl

theorem tEx1_maxAngle : tEx1.maxAngle = 2 * Real.pi / 3 := rfl

theorem tEx2_vf : tEx2.vectorField = cutXField := rfl

theorem tEx2_stepSize : tEx2.stepSize = 1 := rfl

theorem tEx2_maxSteps : tEx2.maxSteps = 3 := rfl

theorem tEx2_minMagnitude : tEx2.minMagnitude = 1 / 2 := rfl

theorem tEx2_maxLength : tEx2.maxLength = 100 := rfl

theorem tEx2_maxAngle : tEx2.maxAngle = 0 := rfl

theorem tEx2_zeroMask : tEx2.zeroMask = cutXField.calculateZeroMask := rfl

theorem interp_constX (x : ℝ) (h0 : 0 ≤ x) (h9 : x ≤ 9) :
    constXField.interpolateVector x 0 0 = ⟨1, 0, 0⟩ := by
  rw [interpolateVector_simple _ _ _ _
    (isInBounds_dim10 constXField rfl rfl rfl x h0 h9), croundf_zero]
  have hb : 0 ≤ croundf x ∧ croundf x < 10 := by
    rw [croundf, if_neg (not_lt.2 h0)]
    exact ⟨Int.le_floor.2 (by push_cast; linarith),
      Int.floor_lt.2 (by push_cast; linarith)⟩
  exact getVector_constX _ hb.1 hb.2

theorem interp_constX_5 : constXField.interpolateVector 5 0 0 = ⟨1, 0, 0⟩ :=
  interp_constX 5 (by norm_num) (by norm_num)

theorem interp_constX_92 :
    constXField.interpolateVector (9 / 2) 0 0 = ⟨1, 0, 0⟩ :=
  interp_constX (9 / 2) (by norm_num) (by norm_num)

theorem interp_constX_4 : constXField.interpolateVector 4 0 0 = ⟨1, 0, 0⟩ :=
  interp_constX 4 (by norm_num) (by norm_num)

theorem interp_constX_72 :
    constXField.interpolateVector (7 / 2) 0 0 = ⟨1, 0, 0⟩ :=
  interp_constX (7 / 2) (by norm_num) (by norm_num)

theorem interp_constX_3 : constXField.interpolateVector 3 0 0 = ⟨1, 0, 0⟩ :=
  interp_constX 3 (by norm_num) (by norm_num)

theorem interp_cutX_4 : cutXField.interpolateVector 4 0 0 = ⟨1, 0, 0⟩ := by
  rw [interpolateVector_simple _ _ _ _
    (isInBounds_dim10 cutXField rfl rfl rfl 4 (by norm_num) (by norm_num)),
    croundf_zero]
  rw [show croundf (4 : ℝ) = 4 from
    croundf_eq (by norm_num) (by norm_num) (by norm_num)]
  exact getVector_cutX_lo 4 (by norm_num) (by norm_num)

theorem interp_cutX_92 :
    cutXField.interpolateVector (9 / 2) 0 0 = ⟨0, 0, 0⟩ := by
  rw [interpolateVector_simple _ _ _ _
    (isInBounds_dim10 cutXField rfl rfl rfl (9 / 2) (by norm_num)
      (by norm_num)), croundf_zero]
  rw [show croundf ((9 : ℝ) / 2) = 5 from
    croundf_eq (by norm_num) (by norm_num) (by norm_num)]
  exact getVector_cutX_hi 5 (by norm_num) (by norm_num)

theorem interp_cutX_5 : cutXField.interpolateVector 5 0 0 = ⟨0, 0, 0⟩ := by
  rw [interpolateVector_simple _ _ _ _
    (isInBounds_dim10 cutXField rfl rfl rfl 5 (by norm_num) (by norm_num)),
    croundf_zero]
  rw [show croundf (5 : ℝ) = 5 from
    croundf_eq (by norm_num) (by norm_num) (by norm_num)]
  exact getVector_cutX_hi 5 (by norm_num) (by norm_num)

theorem rk4_ex1_5 :
    tEx1.rk4Integrate ⟨5, 0, 0⟩ (((-1 : ℤ) : ℝ) * tEx1.stepSize) =
      ⟨4, 0, 0⟩ := by
  norm_num [StreamlineTracer.rk4Integrate, tEx1_vf, tEx1_stepSize,
    interp_constX_5, interp_constX_92, interp_constX_4, Real.sqrt_one]

theorem rk4_ex1_4 :
    tEx1.rk4Integrate ⟨4, 0, 0⟩ (((-1 : ℤ) : ℝ) * tEx1.stepSize) =
      ⟨3, 0, 0⟩ := by
  norm_num [StreamlineTracer.rk4Integrate, tEx1_vf, tEx1_stepSize,
    interp_constX_4, interp_constX_72, interp_constX_3, Real.sqrt_one]

theorem rk4_ex2_4 :
    tEx2.rk4Integrate ⟨4, 0, 0⟩ (((1 : ℤ) : ℝ) * tEx2.stepSize) =
      ⟨9 / 2, 0, 0⟩ := by
  norm_num [StreamlineTracer.rk4Integrate, tEx2_vf, tEx2_stepSize,
    interp_cutX_4, interp_cutX_92, interp_cutX_5, Real.sqrt_one,
    Real.sqrt_zero]

theorem cos_tEx1 : Real.cos tEx1.maxAngle = -(1 / 2) := by
  rw [tEx1_maxAngle,
    show (2 * Real.pi / 3 : ℝ) = Real.pi - Real.pi / 3 by ring,
    Real.cos_pi_sub, Real.cos_pi_div_three]

theorem cos_tEx2 : Real.cos tEx2.maxAngle = 1 := by
  rw [tEx2_maxAngle, Real.cos_zero]

theorem trace_ex1_pair :
    tEx1.traceStreamlineDirectionAux ⟨5, 0, 0⟩ (-1) = ([⟨4, 0, 0⟩], 1) := by
  have h1 : tEx1.traceStepAux (-1) (2 + 1) ⟨5, 0, 0⟩ [] 0 =
      tEx1.traceStepAux (-1) 2 ⟨4, 0, 0⟩ ([] ++ [⟨4, 0, 0⟩]) (0 + 1) :=
    StreamlineTracer.traceStepAux_continue tEx1 (-1) 2 ⟨5, 0, 0⟩ [] 0
      ⟨1, 0, 0⟩ ⟨4, 0, 0⟩ ⟨0, 0, 0⟩ 1
      (by rw [tEx1_maxLength]; norm_num)
      interp_constX_5
      (by norm_num [tEx1_minMagnitude, Real.sqrt_one])
      rk4_ex1_5
      (isInBounds_dim10 constXField rfl rfl rfl 4 (by norm_num) (by norm_num))
      rfl
      (by
        rw [cos_tEx1,
          show StreamlineTracer.vecDiff ⟨5, 0, 0⟩ ⟨0, 0, 0⟩ = ⟨5, 0, 0⟩ by
            norm_num [StreamlineTracer.vecDiff],
          show StreamlineTracer.vecDiff ⟨4, 0, 0⟩ ⟨5, 0, 0⟩ = ⟨-1, 0, 0⟩ by
            norm_num [StreamlineTracer.vecDiff],
          show StreamlineTracer.normalize ⟨5, 0, 0⟩ = ⟨1, 0, 0⟩ by
            rw [normalize_eval _ 5 (by norm_num) (by norm_num)]; norm_num,
          show StreamlineTracer.normalize ⟨-1, 0, 0⟩ = ⟨-1, 0, 0⟩ by
            rw [normalize_eval _ 1 (by norm_num) (by norm_num)]; norm_num]
        norm_num [StreamlineTracer.dot])
      (sqrt_eval (by norm_num) (by norm_num))
      (by norm_num [tEx1_maxSteps])
  have h2 : tEx1.traceStepAux (-1) (1 + 1) ⟨4, 0, 0⟩ [⟨4, 0, 0⟩] 1 =
      ([⟨4, 0, 0⟩], 1) :=
    StreamlineTracer.traceStepAux_angle tEx1 (-1) 1 ⟨4, 0, 0⟩ [⟨4, 0, 0⟩] 1
      ⟨1, 0, 0⟩ ⟨3, 0, 0⟩ ⟨4, 0, 0⟩
      (by rw [tEx1_maxLength]; norm_num)
      interp_constX_4
      (by norm_num [tEx1_minMagnitude, Real.sqrt_one])
      rk4_ex1_4
      (isInBounds_dim10 constXField rfl rfl rfl 3 (by norm_num) (by norm_num))
      rfl
      (by
        rw [cos_tEx1,
          show StreamlineTracer.vecDiff ⟨4, 0, 0⟩ ⟨4, 0, 0⟩ = ⟨0, 0, 0⟩ by
            norm_num [StreamlineTracer.vecDiff],
          show StreamlineTracer.vecDiff ⟨3, 0, 0⟩ ⟨4, 0, 0⟩ = ⟨-1, 0, 0⟩ by
            norm_num [StreamlineTracer.vecDiff],
          normalize_zero]
        norm_num [StreamlineTracer.dot])
  calc tEx1.traceStreamlineDirectionAux ⟨5, 0, 0⟩ (-1)
      = tEx1.traceStepAux (-1) (2 + 1) ⟨5, 0, 0⟩ [] 0 := by
        rw [StreamlineTracer.traceStreamlineDirectionAux, tEx1_maxSteps]
        norm_num
        congr 1
    _ = tEx1.traceStepAux (-1) 2 ⟨4, 0, 0⟩ ([] ++ [⟨4, 0, 0⟩]) (0 + 1) := by
        exact h1
    _ = tEx1.traceStepAux (-1) (1 + 1) ⟨4, 0, 0⟩ [⟨4, 0, 0⟩] 1 := by norm_num
    _ = ([⟨4, 0, 0⟩], 1) := by exact h2

theorem trace_ex1_eval :
    tEx1.traceStreamlineDirection ⟨5, 0, 0⟩ (-1) = [⟨4, 0, 0⟩] := by
  rw [StreamlineTracer.traceStreamlineDirection, trace_ex1_pair]

theorem trace_ex2_eval :
    tEx2.traceStreamlineDirectionAux ⟨4, 0, 0⟩ 1 =
      ([⟨9 / 2, 0, 0⟩], 1 / 2) := by
  have h1 : tEx2.traceStepAux 1 (2 + 1) ⟨4, 0, 0⟩ [] 0 =
      tEx2.traceStepAux 1 2 ⟨9 / 2, 0, 0⟩ ([] ++ [⟨9 / 2, 0, 0⟩])
        (0 + 1 / 2) :=
    StreamlineTracer.traceStepAux_continue tEx2 1 2 ⟨4, 0, 0⟩ [] 0
      ⟨1, 0, 0⟩ ⟨9 / 2, 0, 0⟩ ⟨0, 0, 0⟩ (1 / 2)
      (by rw [tEx2_maxLength]; norm_num)
      interp_cutX_4
      (by norm_num [tEx2_minMagnitude, Real.sqrt_one])
      rk4_ex2_4
      (isInBounds_dim10 cutXField rfl rfl rfl (9 / 2) (by norm_num)
        (by norm_num))
      rfl
      (by
        rw [cos_tEx2,
          show StreamlineTracer.vecDiff ⟨4, 0, 0⟩ ⟨0, 0, 0⟩ = ⟨4, 0, 0⟩ by
            norm_num [StreamlineTracer.vecDiff],
          show StreamlineTracer.vecDiff ⟨9 / 2, 0, 0⟩ ⟨4, 0, 0⟩ =
              ⟨1 / 2, 0, 0⟩ by
            norm_num [StreamlineTracer.vecDiff],
          show StreamlineTracer.normalize ⟨4, 0, 0⟩ = ⟨1, 0, 0⟩ by
            rw [normalize_eval _ 4 (by norm_num) (by norm_num)]; norm_num,
          show StreamlineTracer.normalize ⟨1 / 2, 0, 0⟩ = ⟨1, 0, 0⟩ by
            rw [normalize_eval _ (1 / 2) (by norm_num) (by norm_num)]
            norm_num]
        norm_num [StreamlineTracer.dot])
      (sqrt_eval (by norm_num) (by norm_num))
      (by norm_num [tEx2_maxSteps])
  have h2 : tEx2.traceStepAux 1 (1 + 1) ⟨9 / 2, 0, 0⟩ [⟨9 / 2, 0, 0⟩]
      (1 / 2) = ([⟨9 / 2, 0, 0⟩], 1 / 2) :=
    StreamlineTracer.traceStepAux_mag tEx2 1 1 ⟨9 / 2, 0, 0⟩
      [⟨9 / 2, 0, 0⟩] (1 / 2) ⟨0, 0, 0⟩
      (by rw [tEx2_maxLength]; norm_num)
      interp_cutX_92
      (by norm_num [tEx2_minMagnitude, Real.sqrt_zero])
  calc tEx2.traceStreamlineDirectionAux ⟨4, 0, 0⟩ 1
      = tEx2.traceStepAux 1 (2 + 1) ⟨4, 0, 0⟩ [] 0 := by
        rw [StreamlineTracer.traceStreamlineDirectionAux, tEx2_maxSteps]
        norm_num
        congr 1
    _ = tEx2.traceStepAux 1 2 ⟨9 / 2, 0, 0⟩ ([] ++ [⟨9 / 2, 0, 0⟩])
        (0 + 1 / 2) := by exact h1
    _ = tEx2.traceStepAux 1 (1 + 1) ⟨9 / 2, 0, 0⟩ [⟨9 / 2, 0, 0⟩] (1 / 2) := by
        norm_num
    _ = ([⟨9 / 2, 0, 0⟩], 1 / 2) := by exact h2

theorem trace_ex2_path :
    tEx2.traceStreamlineDirection ⟨4, 0, 0⟩ 1 = [⟨9 / 2, 0, 0⟩] := by
  rw [StreamlineTracer.traceStreamlineDirection, trace_ex2_eval]

/-! The zero-mask construction loop: each voxel's linear index is written
exactly once, so the final mask value at a voxel's index is the value the
loop body stores for that voxel. -/

/-- The value `calculateZeroMask` stores for a voxel. -/
def maskVal (f : VectorField) (x y z : ℤ) : Bool :=
  if (f.getVector x y z).x = 0 ∧ (f.getVector x y z).y = 0 ∧
      (f.getVector x y z).z = 0 then false else true

/-- The voxel triples visited by the `calculateZeroMask` loop nest, in
loop order. -/
def voxList (f : VectorField) : List (ℤ × ℤ × ℤ) :=
  (List.range f.dimX.toNat).flatMap fun (x : ℕ) =>
    (List.range f.dimY.toNat).flatMap fun (y : ℕ) =>
      (List.range f.dimZ.toNat).map fun (z : ℕ) =>
        ((x : ℤ), (y : ℤ), (z : ℤ))

theorem foldl_flatMap_fold {α β γ : Type _} (l : List α) (g : α → List β)
    (step : γ → β → γ) (init : γ) :
    (l.flatMap g).foldl step init =
      l.foldl (fun acc a => (g a).foldl step acc) init := by
  induction l generalizing init with
  | nil => rfl
  | cons a rest ih => simp [List.flatMap_cons, List.foldl_append, ih]

theorem calculateZeroMask_eq_foldl (f : VectorField) :
    f.calculateZeroMask =
      (voxList f).foldl
        (fun m w => VectorField.maskWrite f w.1 w.2.1 w.2.2 m)
        (fun _ => false) := by
  simp only [VectorField.calculateZeroMask, voxList, foldl_flatMap_fold,
    List.foldl_map]

theorem foldl_maskWrite_miss (f : VectorField) (i : ℤ) :
    ∀ l : List (ℤ × ℤ × ℤ),
      (∀ w ∈ l, i ≠ w.1 + w.2.1 * f.dimX + w.2.2 * f.dimX * f.dimY) →
      ∀ m : ℤ → Bool,
        l.foldl (fun m w => VectorField.maskWrite f w.1 w.2.1 w.2.2 m) m i =
          m i := by
  intro l
  induction l with
  | nil => intro _ m; rfl
  | cons w rest ih =>
    intro h m
    rw [List.foldl_cons, ih (fun w' hw' => h w' (List.mem_cons_of_mem _ hw'))]
    simp only [VectorField.maskWrite]
    rw [if_neg (h w (List.mem_cons_self w rest))]

theorem foldl_maskWrite_unique (f : VectorField) (w0 : ℤ × ℤ × ℤ) :
    ∀ l : List (ℤ × ℤ × ℤ), w0 ∈ l →
      (∀ w ∈ l, w.1 + w.2.1 * f.dimX + w.2.2 * f.dimX * f.dimY =
        w0.1 + w0.2.1 * f.dimX + w0.2.2 * f.dimX * f.dimY → w = w0) →
      ∀ m : ℤ → Bool,
        l.foldl (fun m w => VectorField.maskWrite f w.1 w.2.1 w.2.2 m) m
            (w0.1 + w0.2.1 * f.dimX + w0.2.2 * f.dimX * f.dimY) =
          maskVal f w0.1 w0.2.1 w0.2.2 := by
  intro l
  induction l with
  | nil => intro h; cases h
  | cons w rest ih =>
    intro hmem huniq m
    rw [List.foldl_cons]
    by_cases hw : w0 ∈ rest
    · exact ih hw (fun w' hw' h' => huniq w' (List.mem_cons_of_mem _ hw') h') _
    · have hww : w0 = w := by
        rcases List.mem_cons.1 hmem with h | h
        · exact h
        · exact absurd h hw
      subst hww
      have hmiss : ∀ w' ∈ rest,
          w0.1 + w0.2.1 * f.dimX + w0.2.2 * f.dimX * f.dimY ≠
            w'.1 + w'.2.1 * f.dimX + w'.2.2 * f.dimX * f.dimY := by
        intro w' hw' h'
        exact hw (huniq w' (List.mem_cons_of_mem _ hw') h'.symm ▸ hw')
      rw [foldl_maskWrite_miss f _ rest hmiss]
      simp [VectorField.maskWrite, maskVal]

theorem rk4Integrate_congr (t1 t2 : StreamlineTracer)
    (hf : t1.vectorField = t2.vectorField) :
    t1.rk4Integrate = t2.rk4Integrate := by
  funext pos s
  simp only [StreamlineTracer.rk4Integrate, hf]

theorem traceStepAux_spec (t : StreamlineTracer) (d : ℤ) :
    ∀ (fuel : ℕ) (cur : Point3D) (path : List Point3D) (L : ℝ),
      ∃ extra : List Point3D,
        StreamlineTracer.traceStepAux t d fuel cur path L =
          (path ++ extra, L + chainDist cur extra) := by
  intro fuel
  induction fuel with
  | zero =>
    intro cur path L
    exact ⟨[], by simp [StreamlineTracer.traceStepAux, chainDist]⟩
  | succ n ih =>
    intro cur path L
    simp only [StreamlineTracer.traceStepAux]
    split_ifs with h1 h2 h3 h4 h5
    · exact ⟨[], by simp [chainDist]⟩
    · exact ⟨[], by simp [chainDist]⟩
    · exact ⟨[t.rk4Integrate cur ((d : ℝ) * t.stepSize)], by
        simp [chainDist]⟩
    · set next := t.rk4Integrate cur ((d : ℝ) * t.stepSize) with hnext
      set sd := Real.sqrt ((next.x - cur.x) * (next.x - cur.x) +
        (next.y - cur.y) * (next.y - cur.y) +
        (next.z - cur.z) * (next.z - cur.z)) with hsd
      obtain ⟨e, he⟩ := ih next (path ++ [next]) (L + sd)
      rw [he]
      refine ⟨next :: e, ?_⟩
      rw [show chainDist cur (next :: e) = sd + chainDist next e from by
        rw [chainDist, hsd]]
      simp [List.append_assoc, add_assoc]
    · exact ⟨[], by simp [chainDist]⟩
    · exact ⟨[], by simp [chainDist]⟩

theorem traceStepAux_length (t : StreamlineTracer) (d : ℤ) :
    ∀ (fuel : ℕ) (cur : Point3D) (path : List Point3D) (L : ℝ),
      (StreamlineTracer.traceStepAux t d fuel cur path L).1.length ≤
        path.length + fuel := by
  intro fuel
  induction fuel with
  | zero =>
    intro cur path L
    simp [StreamlineTracer.traceStepAux]
  | succ n ih =>
    intro cur path L
    simp only [StreamlineTracer.traceStepAux]
    split_ifs with h1 h2 h3 h4 h5
    · simp
    · simp
    · simp only [List.length_append, List.length_singleton]
      omega
    · exact le_trans (ih _ _ _) (by simp; omega)
    · simp
    · simp

theorem traceStepAux_mem (t : StreamlineTracer) (d : ℤ) :
    ∀ (fuel : ℕ) (cur : Point3D) (path : List Point3D) (L : ℝ)
      (p : Point3D), p ∈ (StreamlineTracer.traceStepAux t d fuel cur path L).1 →
      p ∈ path ∨ t.vectorField.isInBounds p.x p.y p.z = true := by
  intro fuel
  induction fuel with
  | zero =>
    intro cur path L p hp
    exact Or.inl (by simpa [StreamlineTracer.traceStepAux] using hp)
  | succ n ih =>
    intro cur path L p hp
    simp only [StreamlineTracer.traceStepAux] at hp
    split_ifs at hp with h1 h2 h3 h4 h5
    · exact Or.inl hp
    · exact Or.inl hp
    · rcases List.mem_append.1 hp with h | h
      · exact Or.inl h
      · rcases List.mem_singleton.1 h with rfl
        exact Or.inr h3
    · rcases ih _ _ _ _ hp with h | h
      · rcases List.mem_append.1 h with h' | h'
        · exact Or.inl h'
        · rcases List.mem_singleton.1 h' with rfl
          exact Or.inr h3
      · exact Or.inr h
    · exact Or.inl hp
    · exact Or.inl hp

theorem traceStepAux_mask_irrel (t1 t2 : StreamlineTracer)
    (hf : t1.vectorField = t2.vectorField) (hs : t1.stepSize = t2.stepSize)
    (hmin : t1.minMagnitude = t2.minMagnitude)
    (hml : t1.maxLength = t2.maxLength) (hma : t1.maxAngle = t2.maxAngle)
    (hn : t1.maxSteps = t2.maxSteps) (d : ℤ) :
    ∀ (fuel : ℕ) (cur : Point3D) (path : List Point3D) (L : ℝ),
      StreamlineTracer.traceStepAux t1 d fuel cur path L =
        StreamlineTracer.traceStepAux t2 d fuel cur path L := by
  intro fuel
  induction fuel with
  | zero => intro cur path L; rfl
  | succ n ih =>
    intro cur path L
    simp only [StreamlineTracer.traceStepAux, hf, hs, hmin, hml, hma, hn,
      rk4Integrate_congr t1 t2 hf, ih]

theorem addMul_inj {D a b a' b' : ℤ} (ha0 : 0 ≤ a) (ha : a < D)
    (ha0' : 0 ≤ a') (ha' : a' < D) (h : a + D * b = a' + D * b') :
    a = a' ∧ b = b' := by
  have hD : 0 < D := lt_of_le_of_lt ha0 ha
  have hbb : b = b' := by
    rcases lt_trichotomy b b' with hlt | heq | hgt
    · exfalso
      have h1 : (1 : ℤ) ≤ b' - b := by omega
      have h2 : D * 1 ≤ D * (b' - b) := mul_le_mul_of_nonneg_left h1 hD.le
      have h3 : a - a' = D * (b' - b) := by linear_combination h
      linarith
    · exact heq
    · exfalso
      have h1 : (1 : ℤ) ≤ b - b' := by omega
      have h2 : D * 1 ≤ D * (b - b') := mul_le_mul_of_nonneg_left h1 hD.le
      have h3 : a' - a = D * (b - b') := by linear_combination - h
      linarith
  subst hbb
  exact ⟨by linarith, rfl⟩

theorem maskIndex_inj (f : VectorField) {x y z x' y' z' : ℤ}
    (hx0 : 0 ≤ x) (hx : x < f.dimX) (hy0 : 0 ≤ y) (hy : y < f.dimY)
    (hx0' : 0 ≤ x') (hx' : x' < f.dimX) (hy0' : 0 ≤ y') (hy' : y' < f.dimY)
    (h : x + y * f.dimX + z * f.dimX * f.dimY =
      x' + y' * f.dimX + z' * f.dimX * f.dimY) :
    x = x' ∧ y = y' ∧ z = z' := by
  have h1 : x + f.dimX * (y + f.dimY * z) =
      x' + f.dimX * (y' + f.dimY * z') := by linear_combination h
  obtain ⟨hxx, h2⟩ := addMul_inj hx0 hx hx0' hx' h1
  obtain ⟨hyy, hzz⟩ := addMul_inj hy0 hy hy0' hy' h2
  exact ⟨hxx, hyy, hzz⟩

theorem mem_voxList (f : VectorField) {x y z : ℤ}
    (hx0 : 0 ≤ x) (hx : x < f.dimX) (hy0 : 0 ≤ y) (hy : y < f.dimY)
    (hz0 : 0 ≤ z) (hz : z < f.dimZ) : (x, y, z) ∈ voxList f := by
  rw [voxList]
  refine List.mem_flatMap.2 ⟨x.toNat, List.mem_range.2 (by omega), ?_⟩
  refine List.mem_flatMap.2 ⟨y.toNat, List.mem_range.2 (by omega), ?_⟩
  refine List.mem_map.2 ⟨z.toNat, List.mem_range.2 (by omega), ?_⟩
  rw [Int.toNat_of_nonneg hx0, Int.toNat_of_nonneg hy0,
    Int.toNat_of_nonneg hz0]

theorem voxList_bounds (f : VectorField) {w : ℤ × ℤ × ℤ}
    (hmem : w ∈ voxList f) :
    0 ≤ w.1 ∧ w.1 < f.dimX ∧ 0 ≤ w.2.1 ∧ w.2.1 < f.dimY ∧
      0 ≤ w.2.2 ∧ w.2.2 < f.dimZ := by
  rw [voxList] at hmem
  simp only [List.mem_flatMap, List.mem_map, List.mem_range] at hmem
  obtain ⟨a, ha, b, hb, c, hc, hw⟩ := hmem
  subst hw
  refine ⟨?_, ?_, ?_, ?_, ?_, ?_⟩ <;> simp <;> omega

theorem calculateZeroMask_at (f : VectorField) (x y z : ℤ)
    (hx0 : 0 ≤ x) (hx : x < f.dimX) (hy0 : 0 ≤ y) (hy : y < f.dimY)
    (hz0 : 0 ≤ z) (hz : z < f.dimZ) :
    f.calculateZeroMask (x + y * f.dimX + z * f.dimX * f.dimY) =
      maskVal f x y z := by
  rw [calculateZeroMask_eq_foldl]
  exact foldl_maskWrite_unique f (x, y, z) (voxList f)
    (mem_voxList f hx0 hx hy0 hy hz0 hz)
    (fun w hw h' => by
      obtain ⟨h1, h2, h3, h4, h5, h6⟩ := voxList_bounds f hw
      obtain ⟨e1, e2, e3⟩ := maskIndex_inj f h1 h2 h3 h4 hx0 hx hy0 hy h'
      exact Prod.ext e1 (Prod.ext e2 e3))
    _

theorem getVector_in_range (f : VectorField) (x y z : ℤ)
    (hx0 : 0 ≤ x) (hx : x < f.dimX) (hy0 : 0 ≤ y) (hy : y < f.dimY)
    (hz0 : 0 ≤ z) (hz : z < f.dimZ) :
    f.getVector x y z =
      ⟨if f.flipX then -1 * f.data (3 * (z + f.dimZ * (y + f.dimY * x)))
        else f.data (3 * (z + f.dimZ * (y + f.dimY * x))),
       if f.flipY then -1 * f.data (3 * (z + f.dimZ * (y + f.dimY * x)) + 1)
        else f.data (3 * (z + f.dimZ * (y + f.dimY * x)) + 1),
       if f.flipZ then -1 * f.data (3 * (z + f.dimZ * (y + f.dimY * x)) + 2)
        else f.data (3 * (z + f.dimZ * (y + f.dimY * x)) + 2)⟩ := by
  rw [VectorField.getVector, if_neg (by omega)]

theorem maskVal_eq_true (f : VectorField) (x y z : ℤ) :
    maskVal f x y z = true ↔
      ¬ ((f.getVector x y z).x = 0 ∧ (f.getVector x y z).y = 0 ∧
        (f.getVector x y z).z = 0) := by
  rw [maskVal]
  split_ifs with h
  · simp [h]
  · simp [h]

theorem flip_comp_zero (b : Bool) (d : ℝ) :
    (if b then -1 * d else d) = 0 ↔ d = 0 := by
  cases b <;> simp

theorem inline_norm_eq (v : Point3D) :
    (if Real.sqrt (v.x * v.x + v.y * v.y + v.z * v.z) > 0 then
      (⟨v.x / Real.sqrt (v.x * v.x + v.y * v.y + v.z * v.z),
        v.y / Real.sqrt (v.x * v.x + v.y * v.y + v.z * v.z),
        v.z / Real.sqrt (v.x * v.x + v.y * v.y + v.z * v.z)⟩ : Point3D)
     else v) = StreamlineTracer.normalize v := by
  rw [StreamlineTracer.normalize]
  by_cases h : Real.sqrt (v.x * v.x + v.y * v.y + v.z * v.z) > 0
  · rw [if_pos h, if_pos h]
  · rw [if_neg h, if_neg h]
    have hs : Real.sqrt (v.x * v.x + v.y * v.y + v.z * v.z) = 0 :=
      le_antisymm (not_lt.1 h)
        (Real.sqrt_nonneg (v.x * v.x + v.y * v.y + v.z * v.z))
    have h0 : v.x * v.x + v.y * v.y + v.z * v.z ≤ 0 :=
      Real.sqrt_eq_zero'.1 hs
    have hx : v.x = 0 := by nlinarith [sq_nonneg v.x, sq_nonneg v.y, sq_nonneg v.z]
    have hy : v.y = 0 := by nlinarith [sq_nonneg v.x, sq_nonneg v.y, sq_nonneg v.z]
    have hz : v.z = 0 := by nlinarith [sq_nonneg v.x, sq_nonneg v.y, sq_nonneg v.z]
    exact Point3D.ext hx hy hz

/-! Claim theorems. -/

/-- Claim C6: for every integer index triple, `getVector` returns the
stored value at linear index `3*(z + dimZ*(y + dimY*x))` with each
component negated exactly when its flip flag is set if every coordinate
is in `[0, dim)` for its axis, and the exact zero vector otherwise. -/
theorem getVector_spec (f : VectorField) (x y z : ℤ) :
    f.getVector x y z =
      if 0 ≤ x ∧ x < f.dimX ∧ 0 ≤ y ∧ y < f.dimY ∧ 0 ≤ z ∧ z < f.dimZ then
        ⟨if f.flipX then -(f.data (3 * (z + f.dimZ * (y + f.dimY * x))))
          else f.data (3 * (z + f.dimZ * (y + f.dimY * x))),
         if f.flipY then -(f.data (3 * (z + f.dimZ * (y + f.dimY * x)) + 1))
          else f.data (3 * (z + f.dimZ * (y + f.dimY * x)) + 1),
         if f.flipZ then -(f.data (3 * (z + f.dimZ * (y + f.dimY * x)) + 2))
          else f.data (3 * (z + f.dimZ * (y + f.dimY * x)) + 2)⟩
      else ⟨0, 0, 0⟩ := by
  by_cases h : 0 ≤ x ∧ x < f.dimX ∧ 0 ≤ y ∧ y < f.dimY ∧ 0 ≤ z ∧ z < f.dimZ
  · rw [if_pos h, getVector_in_range f x y z h.1 h.2.1 h.2.2.1 h.2.2.2.1
      h.2.2.2.2.1 h.2.2.2.2.2]
    simp [neg_one_mul]
  · rw [if_neg h, VectorField.getVector, if_pos (by omega)]

/-- Claim C3 (amended): for every in-range voxel, the zero mask computed
by `calculateZeroMask` is true at that voxel's index
`x + y*dimX + z*dimX*dimY` iff the raw vector there is non-zero in AT
LEAST ONE of its three components (the code tests the whole vector
against zero, not each component). -/
theorem calculateZeroMask_spec (f : VectorField) (x y z : ℤ)
    (hx0 : 0 ≤ x) (hx : x < f.dimX) (hy0 : 0 ≤ y) (hy : y < f.dimY)
    (hz0 : 0 ≤ z) (hz : z < f.dimZ) :
    (f.calculateZeroMask (x + y * f.dimX + z * f.dimX * f.dimY) = true) ↔
      ¬ (f.data (3 * (z + f.dimZ * (y + f.dimY * x))) = 0 ∧
         f.data (3 * (z + f.dimZ * (y + f.dimY * x)) + 1) = 0 ∧
         f.data (3 * (z + f.dimZ * (y + f.dimY * x)) + 2) = 0) := by
  rw [calculateZeroMask_at f x y z hx0 hx hy0 hy hz0 hz,
    maskVal_eq_true f x y z, getVector_in_range f x y z hx0 hx hy0 hy hz0 hz]
  simp only [flip_comp_zero]

/-- Witness for `calculateZeroMask_spec` at the voxel (0,0,0) of the
concrete field `cutXField`. -/
theorem calculateZeroMask_spec_witness :
    ((0 : ℤ) ≤ 0 ∧ (0 : ℤ) < cutXField.dimX ∧ (0 : ℤ) ≤ 0 ∧
      (0 : ℤ) < cutXField.dimY ∧ (0 : ℤ) ≤ 0 ∧ (0 : ℤ) < cutXField.dimZ) ∧
    ((cutXField.calculateZeroMask
        (0 + 0 * cutXField.dimX + 0 * cutXField.dimX * cutXField.dimY) =
        true) ↔
      ¬ (cutXField.data (3 * (0 + cutXField.dimZ * (0 + cutXField.dimY * 0))) = 0 ∧
         cutXField.data (3 * (0 + cutXField.dimZ * (0 + cutXField.dimY * 0)) + 1) = 0 ∧
         cutXField.data (3 * (0 + cutXField.dimZ * (0 + cutXField.dimY * 0)) + 2) = 0)) := by
  refine ⟨by norm_num [cutXField], ?_⟩
  exact calculateZeroMask_spec cutXField 0 0 0 (by norm_num)
    (by norm_num [cutXField]) (by norm_num) (by norm_num [cutXField])
    (by norm_num) (by norm_num [cutXField])

/-- Counterexample to claim C3 as stated: at voxel (0,0,0) of
`cutXField` the raw vector is (1,0,0) — NOT non-zero in all three
components — yet `calculateZeroMask` is `true` there. -/
theorem calculateZeroMask_claim_cex :
    cutXField.calculateZeroMask
        (0 + 0 * cutXField.dimX + 0 * cutXField.dimX * cutXField.dimY) =
      true ∧
    ¬ (cutXField.data (3 * (0 + cutXField.dimZ * (0 + cutXField.dimY * 0))) ≠ 0 ∧
       cutXField.data (3 * (0 + cutXField.dimZ * (0 + cutXField.dimY * 0)) + 1) ≠ 0 ∧
       cutXField.data (3 * (0 + cutXField.dimZ * (0 + cutXField.dimY * 0)) + 2) ≠ 0) := by
  constructor
  · rw [calculateZeroMask_at cutXField 0 0 0 (by norm_num)
      (by norm_num [cutXField]) (by norm_num) (by norm_num [cutXField])
      (by norm_num) (by norm_num [cutXField])]
    rw [maskVal_eq_true]
    rw [getVector_cutX_lo 0 (by norm_num) (by norm_num)]
    norm_num
  · norm_num [cutXField]

/-- Claim C2 (amended): `traceStreamlineDirection` never consults the
zero mask — two tracers that agree on everything except their zero masks
trace identical paths from every seed; a point whose zero-mask entry is
false can be appended (see the counterexample). -/
theorem traceStreamlineDirection_ignores_zeroMask
    (t1 t2 : StreamlineTracer)
    (hf : t1.vectorField = t2.vectorField) (hs : t1.stepSize = t2.stepSize)
    (hmin : t1.minMagnitude = t2.minMagnitude)
    (hml : t1.maxLength = t2.maxLength) (hma : t1.maxAngle = t2.maxAngle)
    (hn : t1.maxSteps = t2.maxSteps) (seed : Point3D) (direction : ℤ) :
    t1.traceStreamlineDirection seed direction =
      t2.traceStreamlineDirection seed direction := by
  rw [StreamlineTracer.traceStreamlineDirection,
    StreamlineTracer.traceStreamlineDirection,
    StreamlineTracer.traceStreamlineDirectionAux,
    StreamlineTracer.traceStreamlineDirectionAux, hn,
    traceStepAux_mask_irrel t1 t2 hf hs hmin hml hma hn direction
      t2.maxSteps.toNat seed [] 0]

/-- Witness for `traceStreamlineDirection_ignores_zeroMask`: the
constructor-built tracer `tEx2` against the same tracer with its zero
mask replaced by the constantly-false mask. -/
theorem traceStreamlineDirection_ignores_zeroMask_witness :
    ({ tEx2 with zeroMask := fun _ => false }).vectorField =
        tEx2.vectorField ∧
    ({ tEx2 with zeroMask := fun _ => false }).traceStreamlineDirection
        ⟨4, 0, 0⟩ 1 =
      tEx2.traceStreamlineDirection ⟨4, 0, 0⟩ 1 :=
  ⟨rfl, traceStreamlineDirection_ignores_zeroMask
    { tEx2 with zeroMask := fun _ => false } tEx2 rfl rfl rfl rfl rfl rfl
    ⟨4, 0, 0⟩ 1⟩

/-- Counterexample to claim C2 as stated: in the constructor-built
tracer `tEx2` over `cutXField`, the zero-mask entry of voxel (5,0,0)
(linear index 5) is false, the first step from seed (4,0,0) lands at
(4.5,0,0) — whose nearest-sample voxel is (5,0,0) — and the trace
returns the non-empty path [(4.5,0,0)] containing that point, instead of
the empty path the claim demands. -/
theorem trace_appends_zeroMasked_point :
    tEx2.zeroMask 5 = false ∧
    tEx2.traceStreamlineDirection ⟨4, 0, 0⟩ 1 = [⟨9 / 2, 0, 0⟩] ∧
    croundf (9 / 2) = 5 ∧ croundf 0 = 0 := by
  refine ⟨?_, trace_ex2_path, ?_, croundf_zero⟩
  · rw [tEx2_zeroMask]
    have h := calculateZeroMask_at cutXField 5 0 0 (by norm_num)
      (by norm_num [cutXField]) (by norm_num) (by norm_num [cutXField])
      (by norm_num) (by norm_num [cutXField])
    rw [show (5 : ℤ) + 0 * cutXField.dimX + 0 * cutXField.dimX * cutXField.dimY
        = 5 by norm_num] at h
    rw [h, maskVal]
    rw [getVector_cutX_hi 5 (by norm_num) (by norm_num)]
    norm_num
  · exact croundf_eq (by norm_num) (by norm_num) (by norm_num)

/-- Claim C4 (amended): the accumulated length of a direction trace is
the sum of the actual Euclidean distances between consecutive points of
the chain starting at the seed — the code adds `stepDist`, the distance
actually travelled, not the fixed `|stepSize|`. -/
theorem totalLength_eq_chainDist (t : StreamlineTracer) (seed : Point3D)
    (direction : ℤ) :
    (t.traceStreamlineDirectionAux seed direction).2 =
      chainDist seed (t.traceStreamlineDirectionAux seed direction).1 := by
  obtain ⟨e, he⟩ := traceStepAux_spec t direction t.maxSteps.toNat seed [] 0
  rw [StreamlineTracer.traceStreamlineDirectionAux, he]
  simp

/-- Counterexample to claim C4 as stated: with `stepSize = 1`, the trace
from (4,0,0) in `tEx2` accepts exactly one step and accumulates length
1/2 (the Euclidean distance of the RK4 step), not `1 * |stepSize| = 1`. -/
theorem totalLength_claim_cex :
    tEx2.traceStreamlineDirectionAux ⟨4, 0, 0⟩ 1 =
      ([⟨9 / 2, 0, 0⟩], 1 / 2) ∧
    tEx2.stepSize = 1 ∧ ((1 : ℝ) / 2) ≠ 1 * |tEx2.stepSize| := by
  refine ⟨trace_ex2_eval, rfl, ?_⟩
  rw [tEx2_stepSize]
  norm_num

/-- Claim C5 (amended): when the field sample at the starting position
is non-zero but the sample at the half-step midpoint is exactly zero,
`rk4Integrate` does NOT return the input position: the zero midpoint
sample is kept un-normalized as `k2 = 0`, the `k3` probe therefore
collapses back to `pos` (so `k3 = k1`), and the integrator still takes
the step `pos + step/6 * (3*k1 + k4)`. -/
theorem rk4Integrate_zero_midpoint (t : StreamlineTracer) (pos : Point3D)
    (step : ℝ) (v0 : Point3D)
    (hv0 : t.vectorField.interpolateVector pos.x pos.y pos.z = v0)
    (hmag : Real.sqrt (v0.x * v0.x + v0.y * v0.y + v0.z * v0.z) > 0)
    (hmid : t.vectorField.interpolateVector
      (pos.x + step / 2 * (StreamlineTracer.normalize v0).x)
      (pos.y + step / 2 * (StreamlineTracer.normalize v0).y)
      (pos.z + step / 2 * (StreamlineTracer.normalize v0).z) = ⟨0, 0, 0⟩) :
    t.rk4Integrate pos step =
      ⟨pos.x + step / 6 * (3 * (StreamlineTracer.normalize v0).x +
        (StreamlineTracer.normalize (t.vectorField.interpolateVector
          (pos.x + step * (StreamlineTracer.normalize v0).x)
          (pos.y + step * (StreamlineTracer.normalize v0).y)
          (pos.z + step * (StreamlineTracer.normalize v0).z))).x),
       pos.y + step / 6 * (3 * (StreamlineTracer.normalize v0).y +
        (StreamlineTracer.normalize (t.vectorField.interpolateVector
          (pos.x + step * (StreamlineTracer.normalize v0).x)
          (pos.y + step * (StreamlineTracer.normalize v0).y)
          (pos.z + step * (StreamlineTracer.normalize v0).z))).y),
       pos.z + step / 6 * (3 * (StreamlineTracer.normalize v0).z +
        (StreamlineTracer.normalize (t.vectorField.interpolateVector
          (pos.x + step * (StreamlineTracer.normalize v0).x)
          (pos.y + step * (StreamlineTracer.normalize v0).y)
          (pos.z + step * (StreamlineTracer.normalize v0).z))).z)⟩ := by
  simp only [StreamlineTracer.rk4Integrate, inline_norm_eq]
  rw [hv0, hmid]
  simp only [normalize_zero, mul_zero, add_zero, hv0]
  refine Point3D.ext ?_ ?_ ?_ <;> ring

/-- Witness for `rk4Integrate_zero_midpoint` at position (4,0,0) of
`tEx2` with step 1. -/
theorem rk4Integrate_zero_midpoint_witness :
    cutXField.interpolateVector 4 0 0 = (⟨1, 0, 0⟩ : Point3D) ∧
    Real.sqrt ((1 : ℝ) * 1 + 0 * 0 + 0 * 0) > 0 ∧
    tEx2.rk4Integrate ⟨4, 0, 0⟩ 1 = ⟨9 / 2, 0, 0⟩ := by
  have hnorm : StreamlineTracer.normalize ⟨1, 0, 0⟩ = (⟨1, 0, 0⟩ : Point3D) := by
    rw [normalize_eval _ 1 (by norm_num) (by norm_num)]
    norm_num
  have hmid : tEx2.vectorField.interpolateVector
      ((⟨4, 0, 0⟩ : Point3D).x + 1 / 2 *
        (StreamlineTracer.normalize ⟨1, 0, 0⟩).x)
      ((⟨4, 0, 0⟩ : Point3D).y + 1 / 2 *
        (StreamlineTracer.normalize ⟨1, 0, 0⟩).y)
      ((⟨4, 0, 0⟩ : Point3D).z + 1 / 2 *
        (StreamlineTracer.normalize ⟨1, 0, 0⟩).z) = ⟨0, 0, 0⟩ := by
    rw [hnorm]
    norm_num [tEx2_vf, interp_cutX_92]
  have h := rk4Integrate_zero_midpoint tEx2 ⟨4, 0, 0⟩ 1 ⟨1, 0, 0⟩
    (by exact interp_cutX_4) (by norm_num [Real.sqrt_one]) hmid
  refine ⟨interp_cutX_4, by norm_num [Real.sqrt_one], ?_⟩
  rw [h, hnorm]
  norm_num [tEx2_vf, interp_cutX_5, normalize_zero]

/-- Counterexample to claim C5 as stated: at (4,0,0) in `tEx2` the start
sample is (1,0,0) (non-zero), the half-step midpoint (4.5,0,0) samples
to the exact zero vector, yet `rk4Integrate` returns (4.5,0,0) — a half
step — and not the input position (4,0,0). -/
theorem rk4Integrate_zero_midpoint_cex :
    cutXField.interpolateVector 4 0 0 = (⟨1, 0, 0⟩ : Point3D) ∧
    cutXField.interpolateVector (9 / 2) 0 0 = (⟨0, 0, 0⟩ : Point3D) ∧
    tEx2.rk4Integrate ⟨4, 0, 0⟩ 1 = ⟨9 / 2, 0, 0⟩ ∧
    (⟨9 / 2, 0, 0⟩ : Point3D) ≠ (⟨4, 0, 0⟩ : Point3D) := by
  refine ⟨interp_cutX_4, interp_cutX_92, ?_, ?_⟩
  · have := rk4_ex2_4
    rw [tEx2_stepSize] at this
    simpa using this
  · intro h
    have := congrArg Point3D.x h
    norm_num at this

theorem traceAll_acc (t : StreamlineTracer) :
    ∀ (seeds : List Point3D) (acc : List (List Point3D)),
      seeds.foldl (fun streamlines seed =>
        let streamline := t.traceStreamline seed
        if streamline.length > 2 then streamlines ++ [streamline]
        else streamlines) acc =
      acc ++ (seeds.map (fun s => t.traceStreamline s)).filter
        (fun sl => sl.length > 2) := by
  intro seeds
  induction seeds with
  | nil => intro acc; simp
  | cons a rest ih =>
    intro acc
    rw [List.foldl_cons, List.map_cons, List.filter_cons]
    by_cases h : (t.traceStreamline a).length > 2
    · simp only [ih]
      simp [h]
    · simp only [ih]
      simp [h]

theorem traceAll_eq_filter (t : StreamlineTracer) (seeds : List Point3D) :
    t.traceAllStreamlines seeds =
      (seeds.map (fun s => t.traceStreamline s)).filter
        (fun sl => sl.length > 2) := by
  rw [StreamlineTracer.traceAllStreamlines, traceAll_acc]
  simp

/-- Claim C7: the batch tracer returns exactly the per-seed traces with
more than 2 points — membership in the batch result is equivalent to
being the trace of one of the seeds with more than 2 points, and a
singleton batch returns exactly the single trace when it has more than 2
points and nothing otherwise. -/
theorem traceAllStreamlines_spec (t : StreamlineTracer)
    (seeds : List Point3D) :
    (∀ l : List Point3D,
      l ∈ t.traceAllStreamlines seeds ↔
        ∃ s ∈ seeds, t.traceStreamline s = l ∧ 2 < l.length) ∧
    (∀ s : Point3D,
      t.traceAllStreamlines [s] =
        if 2 < (t.traceStreamline s).length then [t.traceStreamline s]
        else []) := by
  constructor
  · intro l
    rw [traceAll_eq_filter, List.mem_filter, List.mem_map]
    constructor
    · rintro ⟨⟨s, hs, rfl⟩, h2⟩
      exact ⟨s, hs, rfl, by simpa using h2⟩
    · rintro ⟨s, hs, rfl, h2⟩
      exact ⟨⟨s, hs, rfl⟩, by simpa using h2⟩
  · intro s
    rw [traceAll_eq_filter]
    by_cases h : 2 < (t.traceStreamline s).length
    · simp [List.map_cons, List.map_nil, List.filter_cons, List.filter_nil, h]
    · simp [List.map_cons, List.map_nil, List.filter_cons, List.filter_nil, h]

theorem sum_const_range (n c : ℕ) :
    ((List.range n).map (fun _ => c)).sum = n * c := by
  induction n with
  | zero => simp
  | succ m ih =>
    rw [List.range_succ, List.map_append, List.sum_append, ih]
    simp [Nat.succ_mul]

theorem filterMap_some_fun {α β : Type _} (f : α → β) :
    ∀ l : List α, l.filterMap (fun a => some (f a)) = l.map f := by
  intro l
  induction l with
  | nil => rfl
  | cons a rest ih => simp [List.filterMap_cons, ih]

theorem sliceSeeds_allTrue (t : StreamlineTracer) (seedDensity slice : ℤ)
    (hmask : ∀ i, t.zeroMask i = true) (h0 : 0 ≤ slice)
    (h1 : slice < t.vectorField.dimZ) :
    t.generateSliceGridSeeds seedDensity slice =
      (List.range t.vectorField.dimX.toNat).flatMap fun (x : ℕ) =>
        (List.range t.vectorField.dimY.toNat).map fun (y : ℕ) =>
          (⟨((x : ℤ) : ℝ), ((y : ℤ) : ℝ), (slice : ℝ)⟩ : Point3D) := by
  rw [StreamlineTracer.generateSliceGridSeeds, if_neg (by omega)]
  simp only [hmask, if_true, filterMap_some_fun]

/-- Claim C8: with an everywhere-true zero mask, `generateSliceGridSeeds`
returns one point per (x, y) cell of the slice plane — `dimX*dimY`
points, pairwise distinct, each with z-coordinate equal to the slice
index — and returns the empty list for a slice index outside
`[0, dimZ)`. -/
theorem generateSliceGridSeeds_spec (t : StreamlineTracer)
    (seedDensity slice : ℤ) (hmask : ∀ i, t.zeroMask i = true) :
    (¬ (0 ≤ slice ∧ slice < t.vectorField.dimZ) →
      t.generateSliceGridSeeds seedDensity slice = []) ∧
    ((0 ≤ slice ∧ slice < t.vectorField.dimZ) →
      (t.generateSliceGridSeeds seedDensity slice).length =
          t.vectorField.dimX.toNat * t.vectorField.dimY.toNat ∧
        (t.generateSliceGridSeeds seedDensity slice).Nodup ∧
        (∀ p ∈ t.generateSliceGridSeeds seedDensity slice,
          p.z = (slice : ℝ)) ∧
        (∀ xi yi : ℤ, 0 ≤ xi → xi < t.vectorField.dimX → 0 ≤ yi →
          yi < t.vectorField.dimY →
          (⟨(xi : ℝ), (yi : ℝ), (slice : ℝ)⟩ : Point3D) ∈
            t.generateSliceGridSeeds seedDensity slice)) := by
  constructor
  · intro h
    rw [StreamlineTracer.generateSliceGridSeeds, if_pos (by omega)]
  · intro h
    rw [sliceSeeds_allTrue t seedDensity slice hmask h.1 h.2]
    refine ⟨?_, ?_, ?_, ?_⟩
    · rw [List.length_flatMap]
      simp only [Function.comp_def, List.length_map, List.length_range]
      exact sum_const_range _ _
    · rw [List.nodup_flatMap]
      constructor
      · intro x _
        refine List.Nodup.map ?_ (List.nodup_range _)
        intro a b hab
        have h2 : ((a : ℤ) : ℝ) = ((b : ℤ) : ℝ) := by
          simpa using congrArg Point3D.y hab
        exact_mod_cast h2
      · have hlt : List.Pairwise (· < ·)
            (List.range t.vectorField.dimX.toNat) :=
          List.pairwise_lt_range _
        refine hlt.imp ?_
        intro a b hab p hpa hpb
        rcases List.mem_map.1 hpa with ⟨ya, _, rfl⟩
        rcases List.mem_map.1 hpb with ⟨yb, _, he⟩
        have h2 : ((b : ℤ) : ℝ) = ((a : ℤ) : ℝ) := by
          simpa using congrArg Point3D.x he
        have hba : (b : ℤ) = (a : ℤ) := by exact_mod_cast h2
        omega
    · intro p hp
      rcases List.mem_flatMap.1 hp with ⟨x, _, hpx⟩
      rcases List.mem_map.1 hpx with ⟨y, _, rfl⟩
      rfl
    · intro xi yi hx0 hx hy0 hy
      refine List.mem_flatMap.2 ⟨xi.toNat, List.mem_range.2 (by omega), ?_⟩
      refine List.mem_map.2 ⟨yi.toNat, List.mem_range.2 (by omega), ?_⟩
      rw [Int.toNat_of_nonneg hx0, Int.toNat_of_nonneg hy0]

/-- A 2x3x4 vector field with every component 1, and a tracer over it
whose zero mask is true everywhere. -/
def allOneTracer : StreamlineTracer :=
  { vectorField :=
      { dimX := 2, dimY := 3, dimZ := 4, data := fun _ => 1 }
    stepSize := 1, maxSteps := 3, minMagnitude := 1 / 2, maxLength := 100
    maxAngle := 0, zeroMask := fun _ => true }

/-- Witness for `generateSliceGridSeeds_spec`: the 2x3x4 all-ones tracer
at slice 1. -/
theorem generateSliceGridSeeds_spec_witness :
    (∀ i, allOneTracer.zeroMask i = true) ∧
    ((0 : ℤ) ≤ 1 ∧ (1 : ℤ) < allOneTracer.vectorField.dimZ) ∧
    ((allOneTracer.generateSliceGridSeeds 1 1).length =
        allOneTracer.vectorField.dimX.toNat *
          allOneTracer.vectorField.dimY.toNat ∧
      (allOneTracer.generateSliceGridSeeds 1 1).Nodup ∧
      (∀ p ∈ allOneTracer.generateSliceGridSeeds 1 1,
        p.z = ((1 : ℤ) : ℝ)) ∧
      (∀ xi yi : ℤ, 0 ≤ xi → xi < allOneTracer.vectorField.dimX → 0 ≤ yi →
        yi < allOneTracer.vectorField.dimY →
        (⟨(xi : ℝ), (yi : ℝ), ((1 : ℤ) : ℝ)⟩ : Point3D) ∈
          allOneTracer.generateSliceGridSeeds 1 1)) := by
  refine ⟨fun i => rfl, ⟨by norm_num, by norm_num [allOneTracer]⟩, ?_⟩
  exact (generateSliceGridSeeds_spec allOneTracer 1 1 (fun i => rfl)).2
    ⟨by norm_num, by norm_num [allOneTracer]⟩

theorem traceDirection_mem (t : StreamlineTracer) (seed : Point3D) (d : ℤ)
    (p : Point3D) (hp : p ∈ t.traceStreamlineDirection seed d) :
    t.vectorField.isInBounds p.x p.y p.z = true := by
  have h := traceStepAux_mem t d t.maxSteps.toNat seed [] 0 p (by
    simpa [StreamlineTracer.traceStreamlineDirection,
      StreamlineTracer.traceStreamlineDirectionAux] using hp)
  rcases h with hc | hc
  · cases hc
  · exact hc

/-- Claim C9: the direction trace runs at most `maxSteps` iterations and
stops as soon as the accumulated length reaches `maxLength` — its path
has at most `maxSteps` points, a full bidirectional streamline has at
most `2*maxSteps + 1` points, and whenever the accumulated length is no
longer below `maxLength` the loop returns immediately. -/
theorem trace_termination_bounds (t : StreamlineTracer) (seed : Point3D)
    (direction : ℤ) :
    (t.traceStreamlineDirection seed direction).length ≤ t.maxSteps.toNat ∧
    (t.traceStreamline seed).length ≤ 2 * t.maxSteps.toNat + 1 ∧
    (∀ (fuel : ℕ) (cur : Point3D) (path : List Point3D) (L : ℝ),
      ¬ L < t.maxLength →
      StreamlineTracer.traceStepAux t direction fuel cur path L =
        (path, L)) := by
  refine ⟨?_, ?_, ?_⟩
  · have h := traceStepAux_length t direction t.maxSteps.toNat seed [] 0
    simpa [StreamlineTracer.traceStreamlineDirection,
      StreamlineTracer.traceStreamlineDirectionAux] using h
  · have hf := traceStepAux_length t 1 t.maxSteps.toNat seed [] 0
    have hb := traceStepAux_length t (-1) t.maxSteps.toNat seed [] 0
    simp only [List.length_nil, Nat.zero_add] at hf hb
    simp only [StreamlineTracer.traceStreamline,
      StreamlineTracer.traceStreamlineDirection,
      StreamlineTracer.traceStreamlineDirectionAux]
    split_ifs with h
    · first
      | omega
      | (simp only [List.length_append, List.length_reverse,
          List.length_singleton]
         omega)
    · simp
  · intro fuel cur path L hL
    cases fuel with
    | zero => rfl
    | succ n =>
      exact (StreamlineTracer.traceStepAux_maxlen t direction n cur path L hL)

/-- Witness for `trace_termination_bounds` on `tEx1`: the length bounds
at seed (5,0,0), and immediate return when the accumulated length 200
already exceeds `maxLength = 100`. -/
theorem trace_termination_bounds_witness :
    ¬ ((200 : ℝ) < tEx1.maxLength) ∧
    StreamlineTracer.traceStepAux tEx1 1 2 ⟨5, 0, 0⟩ [] 200 = ([], 200) ∧
    (tEx1.traceStreamlineDirection ⟨5, 0, 0⟩ 1).length ≤
      tEx1.maxSteps.toNat ∧
    (tEx1.traceStreamline ⟨5, 0, 0⟩).length ≤ 2 * tEx1.maxSteps.toNat + 1 := by
  have h := trace_termination_bounds tEx1 ⟨5, 0, 0⟩ 1
  exact ⟨by rw [tEx1_maxLength]; norm_num,
    h.2.2 2 ⟨5, 0, 0⟩ [] 200 (by rw [tEx1_maxLength]; norm_num),
    h.1, h.2.1⟩

/-- Claim C10: an out-of-bounds seed yields an empty streamline, and
every point of every streamline satisfies `isInBounds` — appended points
are bounds-checked before being pushed. -/
theorem trace_points_inBounds (t : StreamlineTracer) (seed : Point3D) :
    (t.vectorField.isInBounds seed.x seed.y seed.z = false →
      t.traceStreamline seed = []) ∧
    (∀ p ∈ t.traceStreamline seed,
      t.vectorField.isInBounds p.x p.y p.z = true) := by
  constructor
  · intro h
    rw [StreamlineTracer.traceStreamline, if_pos (by simp [h])]
  · intro p hp
    simp only [StreamlineTracer.traceStreamline] at hp
    split_ifs at hp with h
    · rcases List.mem_append.1 hp with h1 | h1
      · rcases List.mem_append.1 h1 with h2 | h2
        · exact traceDirection_mem t seed (-1) p (List.mem_reverse.1 h2)
        · rcases List.mem_singleton.1 h2 with rfl
          exact h
      · exact traceDirection_mem t seed 1 p h1
    · cases hp

/-- Tracer over `constXField` that takes no steps (`maxSteps = 0`), so a
valid seed traces to the single-point streamline `[seed]`. -/
def tExW : StreamlineTracer :=
  { vectorField := constXField, stepSize := 1, maxSteps := 0
    minMagnitude := 1 / 2, maxLength := 100, maxAngle := 0
    zeroMask := fun _ => true }

theorem traceW_eval : tExW.traceStreamline ⟨5, 0, 0⟩ = [⟨5, 0, 0⟩] := by
  have hdir : ∀ d : ℤ, tExW.traceStreamlineDirection ⟨5, 0, 0⟩ d = [] := by
    intro d
    rw [StreamlineTracer.traceStreamlineDirection,
      StreamlineTracer.traceStreamlineDirectionAux]
    rfl
  simp only [StreamlineTracer.traceStreamline, hdir]
  rw [show tExW.vectorField = constXField from rfl]
  rw [if_neg (not_not_intro
    (isInBounds_dim10 constXField rfl rfl rfl 5 (by norm_num) (by norm_num)))]
  simp

/-- Witness for `traceAllStreamlines_spec`: a singleton batch whose
trace has only one point is discarded. -/
theorem traceAllStreamlines_spec_witness :
    tExW.traceAllStreamlines [⟨5, 0, 0⟩] =
      (if 2 < (tExW.traceStreamline ⟨5, 0, 0⟩).length then
        [tExW.traceStreamline ⟨5, 0, 0⟩] else []) ∧
    tExW.traceAllStreamlines [⟨5, 0, 0⟩] = [] := by
  have h := (traceAllStreamlines_spec tExW [⟨5, 0, 0⟩]).2 ⟨5, 0, 0⟩
  refine ⟨h, ?_⟩
  rw [h, traceW_eval]
  norm_num

/-- Witness for `trace_points_inBounds`: the in-bounds seed (5,0,0) of
`tExW` is a member of its own streamline and in bounds, while the
out-of-bounds seed (-1,0,0) yields the empty streamline. -/
theorem trace_points_inBounds_witness :
    ((⟨5, 0, 0⟩ : Point3D) ∈ tExW.traceStreamline ⟨5, 0, 0⟩ ∧
      tExW.vectorField.isInBounds (⟨5, 0, 0⟩ : Point3D).x
        (⟨5, 0, 0⟩ : Point3D).y (⟨5, 0, 0⟩ : Point3D).z = true) ∧
    (tExW.vectorField.isInBounds (⟨-1, 0, 0⟩ : Point3D).x
        (⟨-1, 0, 0⟩ : Point3D).y (⟨-1, 0, 0⟩ : Point3D).z = false ∧
      tExW.traceStreamline ⟨-1, 0, 0⟩ = []) := by
  have hmem : (⟨5, 0, 0⟩ : Point3D) ∈ tExW.traceStreamline ⟨5, 0, 0⟩ := by
    rw [traceW_eval]
    exact List.mem_singleton.2 rfl
  have hout : tExW.vectorField.isInBounds (⟨-1, 0, 0⟩ : Point3D).x
      (⟨-1, 0, 0⟩ : Point3D).y (⟨-1, 0, 0⟩ : Point3D).z = false := by
    simp only [VectorField.isInBounds]
    rw [decide_eq_false_iff_not]
    intro hcon
    have h1 := hcon.1
    norm_num at h1
  exact ⟨⟨hmem, (trace_points_inBounds tExW ⟨5, 0, 0⟩).2 ⟨5, 0, 0⟩ hmem⟩,
    ⟨hout, (trace_points_inBounds tExW ⟨-1, 0, 0⟩).1 hout⟩⟩

/-- Claim C1 is refuted by the code: in `tEx1` (constant field (1,0,0),
`maxAngle = 2π/3`), the backward trace from (5,0,0) accepts (4,0,0) and
then STOPS, even though the next RK4 point is (3,0,0) and the turning
angle between the two consecutive step directions is
`arccos 1 = 0 ≤ maxAngle`: the code breaks when `dot > cos(maxAngle)`
(angle SMALLER than `maxAngle`), and from the second iteration on its
`prevVec` is the zero vector because `currentPos` equals `path.back()`. -/
theorem angle_gate_rejects_straight_step :
    tEx1.traceStreamlineDirection ⟨5, 0, 0⟩ (-1) = [⟨4, 0, 0⟩] ∧
    tEx1.rk4Integrate ⟨4, 0, 0⟩ (((-1 : ℤ) : ℝ) * tEx1.stepSize) =
      ⟨3, 0, 0⟩ ∧
    Real.arccos (StreamlineTracer.dot
      (StreamlineTracer.normalize
        (StreamlineTracer.vecDiff ⟨4, 0, 0⟩ ⟨5, 0, 0⟩))
      (StreamlineTracer.normalize
        (StreamlineTracer.vecDiff ⟨3, 0, 0⟩ ⟨4, 0, 0⟩))) = 0 ∧
    (0 : ℝ) ≤ tEx1.maxAngle := by
  refine ⟨trace_ex1_eval, rk4_ex1_4, ?_, ?_⟩
  · rw [show StreamlineTracer.vecDiff ⟨4, 0, 0⟩ ⟨5, 0, 0⟩ =
        (⟨-1, 0, 0⟩ : Point3D) by norm_num [StreamlineTracer.vecDiff],
      show StreamlineTracer.vecDiff ⟨3, 0, 0⟩ ⟨4, 0, 0⟩ =
        (⟨-1, 0, 0⟩ : Point3D) by norm_num [StreamlineTracer.vecDiff],
      show StreamlineTracer.normalize (⟨-1, 0, 0⟩ : Point3D) =
        (⟨-1, 0, 0⟩ : Point3D) by
        rw [normalize_eval _ 1 (by norm_num) (by norm_num)]; norm_num,
      show StreamlineTracer.dot (⟨-1, 0, 0⟩ : Point3D)
        (⟨-1, 0, 0⟩ : Point3D) = 1 by norm_num [StreamlineTracer.dot]]
    exact Real.arccos_one
  · rw [tEx1_maxAngle]
    positivity

end

end StreamVis
